import Mathlib

/-!
Shallow embedding of the `rsql` event-log / cursor-store package and the
`reflex` instrumented consumer wrapper.

Modelling conventions:
* Machine integers (`int64`, MySQL `bigint`) are modelled as `Int`.
* `time.Time` points and `time.Duration` values are modelled as `Int`
  nanosecond counts sharing one time base (Go durations are `int64`
  nanoseconds; all comparisons in the code compare durations or instants
  directly, so the scale is irrelevant to the proved properties).
* The SQL driver itself (connections, transactions) is an external
  collaborator; its transport failures are out of scope.  The SQL
  statements issued by the code are embedded by their documented
  relational semantics over an explicit table state (a list of rows).
* Go's `error` results become `Option`/`Except` values; a `nil` error is
  `none`/`.ok`.
-/

namespace Rsql

/-- One Go error value, enough structure for `errors.As` unwrapping:
a MySQL driver error carrying a numeric code, a plain error, or a
wrapping of a cause with a message (jettison `errors.Wrap`). -/
inductive GoErr where
  | mysql (number : Nat)
  | plain (msg : String)
  | wrap (msg : String) (cause : GoErr)
  deriving DecidableEq, Repr

/-- `errors.As(err, &me)` for `me : *mysql.MySQLError`: walk the wrap
chain looking for a MySQL driver error, returning its code. -/
def asMySQLErr : GoErr → Option Nat
  | .mysql n => some n
  | .plain _ => none
  | .wrap _ cause => asMySQLErr cause

/-- `isMySQLErr(err, nums...)` from db.go: false for nil, false when
`errors.As` finds no MySQL error, otherwise true iff the code is one of
`nums`.  A Go `nil` error is `none`. -/
def isMySQLErr (err : Option GoErr) (nums : List Nat) : Bool :=
  match err with
  | none => false
  | some e =>
    match asMySQLErr e with
    | none => false
    | some n => nums.contains n

/-- `isMySQLErrReadOnly`: code 1290 (ER_OPTION_PREVENTS_STATEMENT). -/
def isMySQLErrReadOnly (err : Option GoErr) : Bool :=
  isMySQLErr err [1290]

/-- `isMySQLErrNoAccess`: codes 1142, 1143, 1370 (access denied). -/
def isMySQLErrNoAccess (err : Option GoErr) : Bool :=
  isMySQLErr err [1142, 1143, 1370]

/-- `isMySQLErrCantWrite`: read-only mode or missing permission. -/
def isMySQLErrCantWrite (err : Option GoErr) : Bool :=
  isMySQLErrReadOnly err || isMySQLErrNoAccess err

/-- `isMySQLErrDupEntry`: code 1062 (ER_DUP_ENTRY). -/
def isMySQLErrDupEntry (err : Option GoErr) : Bool :=
  isMySQLErr err [1062]

/-- Modelled from the spec: the events-table schema `etableSchema`
(EventLogSchema) is declared outside db.go; per the spec it carries the
table name and the configurable column names, with an empty
`metadataField` meaning metadata is disabled. -/
structure ETableSchema where
  name : String
  timeField : String
  typeField : String
  foreignIDField : String
  metadataField : String
  deriving DecidableEq, Repr

/-- One committed row of the events table: `id` is the auto-assigned
integer primary key, `timestamp` the server-assigned insert time,
`typ` the integer event type (`type` is reserved in Lean), `metadata`
the nullable blob column (`none` is SQL NULL). -/
structure EventRow where
  id : Int
  foreignID : String
  timestamp : Int
  typ : Int
  metadata : Option (List Nat)
  deriving DecidableEq, Repr

/-- State of the events table: committed rows plus the auto-increment
counter that assigns the next id. -/
structure EventsState where
  nextID : Int
  rows : List EventRow
  deriving DecidableEq, Repr

/-- Error results surfaced by the embedded event-log operations. -/
inductive EventErr where
  /-- `errors.New("metadata not enabled")` — MetadataDisabledError. -/
  | metadataNotEnabled
  deriving DecidableEq, Repr

/-- `makeDefaultInserter(schema)` applied to one insert call: builds
`insert into <name> set <foreignID>=?, <time>=now(6), <type>=?`
appending the metadata column when the schema enables it; when the
schema disables metadata a non-nil payload is rejected with
"metadata not enabled" before any statement is executed.  The pair
returns the Go error and the resulting table state (unchanged on
error). -/
def makeDefaultInserter (schema : ETableSchema) (st : EventsState)
    (foreignID : String) (typ : Int) (metadata : Option (List Nat))
    (now : Int) : Option EventErr × EventsState :=
  if schema.metadataField ≠ "" then
    (none, { nextID := st.nextID + 1,
             rows := st.rows ++ [⟨st.nextID, foreignID, now, typ, metadata⟩] })
  else if metadata ≠ none then
    (some .metadataNotEnabled, st)
  else
    (none, { nextID := st.nextID + 1,
             rows := st.rows ++ [⟨st.nextID, foreignID, now, typ, none⟩] })

/-- `getLatestID`: `select max(id) from <name>` scanned into a
`sql.NullInt64`; SQL MAX over an empty table is NULL, whose `Int64`
field is 0, so an empty table yields 0 without error. -/
def getLatestID (rows : List EventRow) : Except EventErr Int :=
  .ok (((rows.map EventRow.id).max?).getD 0)

/-- The decoded `reflex.Event` produced by `scan`: the integer id is
rendered to its decimal string (`strconv.FormatInt(id, 10)`). -/
structure Event where
  id : String
  foreignID : String
  timestamp : Int
  typ : Int
  metaData : Option (List Nat)
  deriving DecidableEq, Repr

/-- `scan`: positional decode of a selected row into a `reflex.Event`,
with the integer id formatted as a decimal string. -/
def scan (r : EventRow) : Event :=
  ⟨toString r.id, r.foreignID, r.timestamp, r.typ, r.metadata⟩

/-- The WHERE clause of `getNextEvents`: `id > ?`, plus, only when
`lag > 0`, `<time> < now() - interval lag second`. -/
def rowMatches (after lag now : Int) (r : EventRow) : Bool :=
  decide (after < r.id) &&
    (if 0 < lag then decide (r.timestamp < now - lag) else true)

/-- Ordering used by `order by id asc`. -/
def idLE (a b : EventRow) : Prop := a.id ≤ b.id

instance : DecidableRel idLE := fun a b =>
  inferInstanceAs (Decidable (a.id ≤ b.id))

instance : IsTotal EventRow idLE := ⟨fun a b => Int.le_total a.id b.id⟩

instance : IsTrans EventRow idLE := ⟨fun _ _ _ h1 h2 => le_trans h1 h2⟩

/-- Relational semantics of the `getNextEvents` SELECT:
`select ... from <name> where id>? [and <time><now()-interval ? second]
order by id asc limit 1000` — filter the committed rows, sort ascending
by id, return at most 1000. -/
def nextEventsQuery (rows : List EventRow) (after lag now : Int) :
    List EventRow :=
  ((rows.filter (rowMatches after lag now)).insertionSort idLE).take 1000

/-- Column-list projection of the SELECT: when the schema disables
metadata the query selects the literal `null` in that position, so the
scanned metadata is absent regardless of the stored row. -/
def selectRow (schema : ETableSchema) (r : EventRow) : EventRow :=
  if schema.metadataField ≠ "" then r else { r with metadata := none }

/-- `getNextEvents`: run the batch SELECT and scan every returned row;
an exhausted result set is returned as an (empty) list with a nil
error. -/
def getNextEvents (schema : ETableSchema) (rows : List EventRow)
    (after lag now : Int) : Except EventErr (List Event) :=
  .ok ((nextEventsQuery rows after lag now).map
        (fun r => scan (selectRow schema r)))

/-- One row of the cursor table: `id` is the consumer name (unique
key), `cursor` the stored checkpoint in its cast numeric representation,
`updatedAt` the last-advance time.  Modelled from the spec: the cursor
schema's `cursorType` descriptor lives outside db.go; the claims
exercise the numeric cursor representation, so the stored cursor column
is an `Int` and `Cast` parses a decimal string. -/
structure CursorRow where
  id : String
  cursor : Int
  updatedAt : Int
  deriving DecidableEq, Repr

/-- Error results surfaced by the embedded cursor-store operations. -/
inductive CursorErr where
  /-- `schema.cursorType.Cast(cursor)` failed. -/
  | castError
  /-- `errors.New("invalid rows affected error")` — more than one row
  affected by the guarded update (InvalidCursorStateError). -/
  | invalidRowsAffected
  /-- duplicate-key on the fallback insert, wrapped as
  `"attempted to set cursor <= existing cursor"`
  (CursorRegressionError). -/
  | cursorRegression
  deriving DecidableEq, Repr

/-- `getCursor`: `select cursor from <name> where id=?`; `sql.ErrNoRows`
is mapped to the zero-value cursor `""` with a nil error.  A stored
numeric cursor scans into the `string` destination as its decimal
rendering. -/
def getCursor (tbl : List CursorRow) (id : String) :
    Except CursorErr String :=
  match tbl.find? (fun r => r.id == id) with
  | none => .ok ""
  | some r => .ok (toString r.cursor)

/-- Value of one decimal digit character. -/
def digitVal (ch : Char) : Option Nat :=
  if '0' ≤ ch ∧ ch ≤ '9' then some (ch.toNat - '0'.toNat) else none

/-- Left-to-right accumulation of decimal digits; any non-digit
character is a parse error. -/
def parseNatDigits : List Char → Nat → Option Nat
  | [], acc => some acc
  | ch :: rest, acc =>
    match digitVal ch with
    | none => none
    | some d => parseNatDigits rest (acc * 10 + d)

/-- Modelled from the spec: the numeric `cursorType.Cast`, declared
outside db.go, casts the incoming cursor string into the comparable
integer representation (avoiding MySQL string/int comparison) —
`strconv.ParseInt(s, 10, 64)`: an optional sign followed by at least
one decimal digit (the int64 range check is immaterial to the proved
properties and omitted). -/
def castCursor (cursor : String) : Option Int :=
  match cursor.data with
  | [] => none
  | '-' :: rest =>
    if rest = [] then none
    else (parseNatDigits rest 0).map (fun n => -(n : Int))
  | '+' :: rest =>
    if rest = [] then none
    else (parseNatDigits rest 0).map (fun n => (n : Int))
  | l => (parseNatDigits l 0).map (fun n => (n : Int))

/-- The guarded UPDATE's row predicate:
`where <id>=? and <cursor> < ?` (strict comparison against the cast
new cursor). -/
def cursorUpdMatch (id : String) (c : Int) (r : CursorRow) : Bool :=
  r.id == id && decide (r.cursor < c)

/-- Effect of the guarded UPDATE on the table:
`set <cursor>=?, <time>=now()` on every matching row. -/
def cursorUpdRows (tbl : List CursorRow) (id : String) (c now : Int) :
    List CursorRow :=
  tbl.map (fun r => if cursorUpdMatch id c r then ⟨r.id, c, now⟩ else r)

/-- `setCursor`: cast the cursor, run the guarded UPDATE, inspect
`RowsAffected`: more than one row is `invalid rows affected error`,
exactly one row is success, zero rows falls through to
`insert into <name> set <id>=?, <cursor>=?, <time>=now()`, whose
duplicate-key failure (unique key on the consumer id) is wrapped as
`"attempted to set cursor <= existing cursor"`.  Returns the Go error
and the table state after the statements that executed. -/
def setCursor (tbl : List CursorRow) (id : String) (cursor : String)
    (now : Int) : Option CursorErr × List CursorRow :=
  match castCursor cursor with
  | none => (some .castError, tbl)
  | some c =>
    let updated := cursorUpdRows tbl id c now
    let affected := (tbl.filter (cursorUpdMatch id c)).length
    if 1 < affected then
      (some .invalidRowsAffected, updated)
    else if affected = 1 then
      (none, updated)
    else if updated.any (fun r => r.id == id) then
      (some .cursorRegression, updated)
    else
      (none, updated ++ [⟨id, c, now⟩])

end Rsql

namespace Reflex

/-- `defaultLagAlert = 30 * time.Minute`, in nanoseconds. -/
def defaultLagAlert : Int := 30 * 60 * 1000000000

/-- `defaultActivityTTL = 24 * time.Hour`, in nanoseconds. -/
def defaultActivityTTL : Int := 24 * 60 * 60 * 1000000000

/-- The configuration fields of the `consumer` struct (the metric
handles it also carries are modelled as the separate mutable
`Metrics` state below). -/
structure Consumer where
  name : String
  lagAlert : Int
  activityTTL : Int
  deriving DecidableEq, Repr

/-- A `ConsumerOption` mutates the consumer under construction. -/
def ConsumerOption := Consumer → Consumer

/-- `WithConsumerLagAlert(d)`. -/
def WithConsumerLagAlert (d : Int) : ConsumerOption :=
  fun c => { c with lagAlert := d }

/-- `WithoutConsumerLag()`: sets the lag alert threshold to -1. -/
def WithoutConsumerLag : ConsumerOption :=
  fun c => { c with lagAlert := -1 }

/-- `WithConsumerActivityTTL(ttl)`. -/
def WithConsumerActivityTTL (ttl : Int) : ConsumerOption :=
  fun c => { c with activityTTL := ttl }

/-- `WithoutConsumerActivityTTL()`: sets the activity TTL to -1. -/
def WithoutConsumerActivityTTL : ConsumerOption :=
  fun c => { c with activityTTL := -1 }

/-- `NewConsumer(name, fn, opts...)`: defaults then the options in
order.  The handler itself is passed separately to `Consume` in this
embedding, so the configuration record is what is constructed here. -/
def NewConsumer (name : String) (opts : List ConsumerOption) : Consumer :=
  opts.foldl (fun c o => o c)
    { name := name, lagAlert := defaultLagAlert,
      activityTTL := defaultActivityTTL }

/-- The mutable Prometheus metric sinks owned by one consumer: the lag
gauge and lag-alert gauge hold their last `Set` value, the error
counter its count, the latency histogram the multiset of `Observe`d
samples (as the list of recorded values), and the activity gauge
whether `SetActive` has marked the consumer active. -/
structure Metrics where
  lagGauge : Int
  lagAlertGauge : Int
  errorCounter : Nat
  latencySamples : List Int
  active : Bool
  deriving DecidableEq, Repr

/-- `consumer.Consume(ctx, fate, event)` for a handler `fn` (which
receives the context and fate values unchanged): records the activity
heartbeat, sets the lag gauge to `now - event.Timestamp`, sets the
alert gauge to 1 iff the lag exceeds the threshold and the threshold is
positive (else 0), invokes the handler, increments the error counter
exactly when the handler failed, observes the handler latency
(`t1 - t0`, where `t1` is the clock reading after the handler
returned), and returns the handler's error unchanged. -/
def Consume {Ctx Fate ε : Type} (c : Consumer) (m : Metrics)
    (fn : Ctx → Fate → Rsql.Event → Option ε)
    (ctx : Ctx) (fate : Fate) (event : Rsql.Event) (t0 t1 : Int) :
    Option ε × Metrics :=
  let m1 := { m with active := true }
  let lag := t0 - event.timestamp
  let m2 := { m1 with lagGauge := lag }
  let alert : Int := if lag > c.lagAlert ∧ c.lagAlert > 0 then 1 else 0
  let m3 := { m2 with lagAlertGauge := alert }
  let err := fn ctx fate event
  let m4 := if err.isSome then { m3 with errorCounter := m3.errorCounter + 1 }
            else m3
  let latency := t1 - t0
  let m5 := { m4 with latencySamples := m4.latencySamples ++ [latency] }
  (err, m5)

end Reflex

open Rsql Reflex

/-- Claim C8: the error classifiers `isMySQLErrCantWrite` (read-only /
permission codes) and `isMySQLErrDupEntry` are total functions of the
error argument that return `false` for a nil error and for any error
whose unwrap chain carries no MySQL error code; being total Lean
functions they cannot panic. -/
theorem C8_classifiers_false_on_unrecognized :
    isMySQLErrCantWrite none = false ∧ isMySQLErrDupEntry none = false ∧
    ∀ e : GoErr, asMySQLErr e = none →
      isMySQLErrCantWrite (some e) = false ∧
      isMySQLErrDupEntry (some e) = false := by
  refine ⟨rfl, rfl, fun e he => ?_⟩
  simp [isMySQLErrCantWrite, isMySQLErrReadOnly, isMySQLErrNoAccess,
    isMySQLErrDupEntry, isMySQLErr, he]

/-- Witness for C8 at a concrete non-MySQL error. -/
theorem C8_classifiers_false_on_unrecognized_witness :
    isMySQLErrCantWrite (some (.wrap "ctx" (.plain "boom"))) = false ∧
    isMySQLErrDupEntry (some (.wrap "ctx" (.plain "boom"))) = false :=
  C8_classifiers_false_on_unrecognized.2.2 (.wrap "ctx" (.plain "boom")) rfl

/-- Claim C3: on a schema whose metadata field is empty (disabled),
inserting a non-nil metadata payload fails with
MetadataDisabledError ("metadata not enabled") and leaves the table
state unchanged, while inserting nil metadata succeeds and appends the
row. -/
theorem C3_metadata_gating (schema : ETableSchema) (st : EventsState)
    (fid : String) (typ now : Int)
    (hdis : schema.metadataField = "") :
    (∀ md : List Nat,
        makeDefaultInserter schema st fid typ (some md) now =
          (some .metadataNotEnabled, st)) ∧
    makeDefaultInserter schema st fid typ none now =
      (none, { nextID := st.nextID + 1,
               rows := st.rows ++ [⟨st.nextID, fid, now, typ, none⟩] }) := by
  constructor
  · intro md
    simp [makeDefaultInserter, hdis]
  · simp [makeDefaultInserter, hdis]

/-- Witness for C3 on a concrete disabled-metadata schema. -/
theorem C3_metadata_gating_witness :
    makeDefaultInserter ⟨"events", "timestamp", "type", "foreign_id", ""⟩
        ⟨1, []⟩ "f" 2 (some [7]) 0 =
      (some .metadataNotEnabled, ⟨1, []⟩) ∧
    makeDefaultInserter ⟨"events", "timestamp", "type", "foreign_id", ""⟩
        ⟨1, []⟩ "f" 2 none 0 =
      (none, ⟨2, [⟨1, "f", 0, 2, none⟩]⟩) :=
  ⟨(C3_metadata_gating _ _ _ _ _ rfl).1 [7],
   (C3_metadata_gating _ _ _ _ _ rfl).2⟩

/-- Claim C5: `getCursor` on a consumer id with no stored row returns
the zero-value cursor (the empty string) with a nil error. -/
theorem C5_absent_row_zero_cursor (tbl : List CursorRow) (cid : String)
    (habs : ∀ r ∈ tbl, r.id ≠ cid) :
    getCursor tbl cid = .ok "" := by
  unfold getCursor
  rw [List.find?_eq_none.mpr ?_]
  intro r hr
  simpa using habs r hr

/-- Witness for C5 on a concrete table without the consumer's row. -/
theorem C5_absent_row_zero_cursor_witness :
    getCursor [⟨"other", 9, 3⟩] "c" = .ok "" :=
  C5_absent_row_zero_cursor _ "c" (by decide)

/-- Claim C6: `getLatestID` returns, with a nil error, a value that is
0 on the empty table and otherwise is an id present in the table that
bounds every id in the table from above (the SQL MAX; NULL decoded as
0, not as an error). -/
theorem C6_latest_id (rows : List EventRow) :
    ∃ m : Int, getLatestID rows = .ok m ∧
      (rows = [] → m = 0) ∧
      (∀ r ∈ rows, r.id ≤ m) ∧
      (rows ≠ [] → ∃ r ∈ rows, r.id = m) := by
  refine ⟨((rows.map EventRow.id).max?).getD 0, rfl, ?_, ?_, ?_⟩
  · rintro rfl; rfl
  · intro r hr
    cases hmax : (rows.map EventRow.id).max? with
    | none =>
      rw [List.max?_eq_none_iff] at hmax
      simp [List.map_eq_nil_iff] at hmax
      simp [hmax] at hr
    | some a =>
      simp only [Option.getD_some]
      exact (List.max?_le_iff (fun a b c => max_le_iff) hmax).mp le_rfl
        r.id (List.mem_map_of_mem EventRow.id hr)
  · intro hne
    cases hmax : (rows.map EventRow.id).max? with
    | none =>
      rw [List.max?_eq_none_iff] at hmax
      simp [List.map_eq_nil_iff] at hmax
      exact absurd hmax hne
    | some a =>
      have ha := List.max?_mem (fun a b => max_choice a b) hmax
      rcases List.mem_map.mp ha with ⟨r, hr, hid⟩
      exact ⟨r, hr, by simp [hid, hmax]⟩

/-- Witness for C6 on a concrete nonempty table. -/
theorem C6_latest_id_witness :
    ∃ m : Int, getLatestID [⟨1, "a", 0, 0, none⟩, ⟨4, "b", 0, 0, none⟩] = .ok m ∧
      m = 4 := by
  rcases C6_latest_id [⟨1, "a", 0, 0, none⟩, ⟨4, "b", 0, 0, none⟩] with
    ⟨m, hok, -, hub, hmem⟩
  refine ⟨m, hok, ?_⟩
  rcases hmem (by simp) with ⟨r, hr, hid⟩
  have h4 : (4 : Int) ≤ m := hub ⟨4, "b", 0, 0, none⟩ (by simp)
  have : m ≤ 4 := by
    simp only [List.mem_cons, List.not_mem_nil, or_false] at hr
    rcases hr with h | h
    · rw [← hid, h]; decide
    · rw [← hid, h]
  omega

/-- Claim C4: `Consume` returns exactly the error value the wrapped
handler returned, and the error counter grows by one on a failing call
and by zero on a successful call, for every lag-alert configuration. -/
theorem C4_error_propagated_and_counted {Ctx Fate ε : Type}
    (c : Consumer) (m : Metrics)
    (fn : Ctx → Fate → Rsql.Event → Option ε) (ctx : Ctx) (fate : Fate)
    (event : Rsql.Event) (t0 t1 : Int) :
    (Consume c m fn ctx fate event t0 t1).1 = fn ctx fate event ∧
    (Consume c m fn ctx fate event t0 t1).2.errorCounter =
      m.errorCounter +
        (if (fn ctx fate event).isSome then 1 else 0) := by
  cases h : fn ctx fate event <;> simp [Consume, h]

/-- Witness for C4 with a concrete always-failing handler. -/
theorem C4_error_propagated_and_counted_witness :
    (Consume ⟨"c", -1, -1⟩ ⟨0, 1, 5, [], false⟩
        (fun (_ : Unit) (_ : Unit) _ => some "boom") () () ⟨"1", "f", 0, 0, none⟩ 2 3).1
      = some "boom" ∧
    (Consume ⟨"c", -1, -1⟩ ⟨0, 1, 5, [], false⟩
        (fun (_ : Unit) (_ : Unit) _ => some "boom") () () ⟨"1", "f", 0, 0, none⟩ 2 3).2.errorCounter
      = 6 :=
  ⟨(C4_error_propagated_and_counted _ _ _ _ _ _ _ _).1,
   (C4_error_propagated_and_counted _ _ _ _ _ _ _ _).2⟩

/-- Claim C9: `Consume` appends exactly one sample (the handler
latency) to the latency histogram on every call, whether the handler
returns nil or an error. -/
theorem C9_latency_observed_once {Ctx Fate ε : Type}
    (c : Consumer) (m : Metrics)
    (fn : Ctx → Fate → Rsql.Event → Option ε) (ctx : Ctx) (fate : Fate)
    (event : Rsql.Event) (t0 t1 : Int) :
    (Consume c m fn ctx fate event t0 t1).2.latencySamples =
      m.latencySamples ++ [t1 - t0] := by
  cases h : fn ctx fate event <;> simp [Consume, h]

/-- Claim C10: the lag-alert gauge is set to 1 exactly when the lag
exceeds the threshold and the threshold is strictly positive, else to
0; in particular a zero threshold always yields 0 (alerting disabled),
and a previously raised alert (gauge 1 in the incoming metric state) is
overwritten with 0 by any non-lagging call. -/
theorem C10_lag_alert_gauge {Ctx Fate ε : Type}
    (c : Consumer) (m : Metrics)
    (fn : Ctx → Fate → Rsql.Event → Option ε) (ctx : Ctx) (fate : Fate)
    (event : Rsql.Event) (t0 t1 : Int) :
    ((Consume c m fn ctx fate event t0 t1).2.lagAlertGauge =
      if t0 - event.timestamp > c.lagAlert ∧ c.lagAlert > 0 then 1 else 0) ∧
    (c.lagAlert = 0 →
      (Consume c m fn ctx fate event t0 t1).2.lagAlertGauge = 0) ∧
    (¬ (t0 - event.timestamp > c.lagAlert ∧ c.lagAlert > 0) →
      (Consume c m fn ctx fate event t0 t1).2.lagAlertGauge = 0) := by
  refine ⟨?_, ?_, ?_⟩
  · cases h : fn ctx fate event <;> simp [Consume, h]
  · intro hz
    cases h : fn ctx fate event <;> simp [Consume, h, hz]
  · intro hno
    cases h : fn ctx fate event <;> simp [Consume, h, hno]

/-- Witness for C10: zero threshold with a huge lag and a previously
raised alert still yields gauge 0. -/
theorem C10_lag_alert_gauge_witness :
    (Consume ⟨"c", 0, -1⟩ ⟨0, 1, 0, [], false⟩
        (fun (_ : Unit) (_ : Unit) _ => (none : Option Unit)) () ()
        ⟨"1", "f", 0, 0, none⟩ 1000000 1000001).2.lagAlertGauge = 0 :=
  (C10_lag_alert_gauge _ _ _ _ _ _ _ _).2.1 rfl

/-- Every event row selected by the batch query satisfies the WHERE
clause. -/
theorem mem_nextEventsQuery {rows : List EventRow} {after lag now : Int}
    {r : EventRow} (h : r ∈ nextEventsQuery rows after lag now) :
    rowMatches after lag now r = true := by
  unfold nextEventsQuery at h
  have h1 := (List.take_sublist 1000 _).mem h
  rw [List.mem_insertionSort] at h1
  exact List.of_mem_filter h1

/-- Claim C2: `getNextEvents` scans exactly the rows selected by the
batch query; on a table with distinct ids (the primary key), every
selected row has id strictly greater than `after`, the selected rows
are in strictly ascending id order, at most 1000 rows are selected, and
when no row matches the call returns the empty list with a nil
error. -/
theorem C2_next_batch (schema : ETableSchema) (rows : List EventRow)
    (after lag now : Int)
    (hpk : rows.Pairwise (fun a b => a.id ≠ b.id)) :
    getNextEvents schema rows after lag now =
      .ok ((nextEventsQuery rows after lag now).map
            (fun r => scan (selectRow schema r))) ∧
    (∀ r ∈ nextEventsQuery rows after lag now, after < r.id) ∧
    (nextEventsQuery rows after lag now).Pairwise
      (fun a b => a.id < b.id) ∧
    (nextEventsQuery rows after lag now).length ≤ 1000 ∧
    ((∀ r ∈ rows, rowMatches after lag now r = false) →
      getNextEvents schema rows after lag now = .ok []) := by
  refine ⟨rfl, ?_, ?_, ?_, ?_⟩
  · intro r hr
    have := mem_nextEventsQuery hr
    unfold rowMatches at this
    exact of_decide_eq_true (Bool.and_elim_left this)
  · have hsorted : ((rows.filter (rowMatches after lag now)).insertionSort
        idLE).Pairwise idLE :=
      List.sorted_insertionSort idLE _
    have hne : (rows.filter (rowMatches after lag now)).Pairwise
        (fun a b => a.id ≠ b.id) :=
      List.Pairwise.sublist (List.filter_sublist _) hpk
    have hneS : ((rows.filter (rowMatches after lag now)).insertionSort
        idLE).Pairwise (fun a b => a.id ≠ b.id) :=
      ((List.perm_insertionSort idLE _).pairwise_iff
        (fun h => h ∘ Eq.symm)).mpr hne
    have hlt := (hsorted.and hneS).imp
      (fun {a b} h => lt_of_le_of_ne h.1 h.2)
    exact List.Pairwise.sublist (List.take_sublist _ _) hlt
  · exact List.length_take_le _ _
  · intro hnone
    have hfil : rows.filter (rowMatches after lag now) = [] := by
      rw [List.filter_eq_nil_iff]
      intro a ha
      simp [hnone a ha]
    simp [getNextEvents, nextEventsQuery, hfil, List.insertionSort]

/-- Witness for C2 on a concrete two-row table where nothing matches
(the nearest event id is not past `after`). -/
theorem C2_next_batch_witness :
    getNextEvents ⟨"events", "timestamp", "type", "foreign_id", ""⟩
      [⟨2, "a", 0, 0, none⟩, ⟨1, "b", 0, 0, none⟩] 5 0 0 = .ok [] :=
  (C2_next_batch _ _ 5 0 0 (by decide)).2.2.2.2 (by decide)

/-- Claim C7: with `maxLag` strictly positive, every row selected by
the batch query has timestamp strictly older than `now - maxLag`; with
`maxLag` zero or negative no lag filter is applied — the query is the
one with the lag knob disabled, so recency excludes nothing. -/
theorem C7_lag_window (rows : List EventRow) (after lag now : Int) :
    (0 < lag → ∀ r ∈ nextEventsQuery rows after lag now,
      r.timestamp < now - lag) ∧
    (lag ≤ 0 → nextEventsQuery rows after lag now =
      nextEventsQuery rows after 0 now) := by
  constructor
  · intro hlag r hr
    have := mem_nextEventsQuery hr
    unfold rowMatches at this
    have h2 := Bool.and_elim_right this
    rw [if_pos hlag] at h2
    exact of_decide_eq_true h2
  · intro hlag
    unfold nextEventsQuery
    have : rows.filter (rowMatches after lag now) =
        rows.filter (rowMatches after 0 now) := by
      apply List.filter_congr
      intro a _
      unfold rowMatches
      rw [if_neg (by omega), if_neg (by omega)]
    rw [this]

/-- Witness for C7: with a 10-unit lag window at `now = 100`, a
selected event's timestamp is provably older than 90. -/
theorem C7_lag_window_witness :
    (0 : Int) < 10 ∧ (50 : Int) < 100 - 10 :=
  ⟨by decide,
   (C7_lag_window [⟨1, "a", 50, 0, none⟩] 0 10 100).1 (by decide)
     ⟨1, "a", 50, 0, none⟩ (by decide)⟩

/-- On a cursor table whose consumer ids are pairwise distinct (the
unique key), two member rows sharing an id are the same row. -/
theorem pkUnique {tbl : List CursorRow}
    (hpk : tbl.Pairwise (fun a b => a.id ≠ b.id))
    {r r' : CursorRow} (hr : r ∈ tbl) (hr' : r' ∈ tbl)
    (h : r.id = r'.id) : r = r' := by
  induction tbl with
  | nil => cases hr
  | cons a l ih =>
    obtain ⟨ha, hl⟩ := List.pairwise_cons.mp hpk
    rcases List.mem_cons.mp hr with h1 | h1
    · rcases List.mem_cons.mp hr' with h2 | h2
      · rw [h1, h2]
      · exact absurd (by rw [← h1]; exact h) (ha r' h2)
    · rcases List.mem_cons.mp hr' with h2 | h2
      · exact absurd (by rw [← h2]; exact h.symm) (ha r h1)
      · exact ih hl h1 h2

/-- A guarded UPDATE that matches no row leaves the table unchanged. -/
theorem cursorUpdRows_of_none (now : Int) {tbl : List CursorRow}
    {cid : String} {c : Int}
    (h : ∀ r ∈ tbl, cursorUpdMatch cid c r = false) :
    cursorUpdRows tbl cid c now = tbl := by
  unfold cursorUpdRows
  have hcongr : ∀ r ∈ tbl,
      (if cursorUpdMatch cid c r then (⟨r.id, c, now⟩ : CursorRow) else r)
        = r := by
    intro r hr
    simp [h r hr]
  rw [List.map_congr_left hcongr, List.map_id']

/-- With distinct consumer ids, a predicate that holds exactly at one
member row filters to the singleton of that row. -/
theorem filter_pk_single {tbl : List CursorRow}
    (hpk : tbl.Pairwise (fun a b => a.id ≠ b.id))
    {r : CursorRow} (hr : r ∈ tbl) (p : CursorRow → Bool)
    (hiff : ∀ r' ∈ tbl, (p r' = true ↔ r' = r)) :
    tbl.filter p = [r] := by
  induction tbl with
  | nil => cases hr
  | cons a l ih =>
    obtain ⟨ha, hl⟩ := List.pairwise_cons.mp hpk
    rcases List.mem_cons.mp hr with h1 | h1
    · have hpa : p a = true := (hiff a (List.mem_cons_self a l)).mpr h1.symm
      rw [List.filter_cons_of_pos hpa]
      have hnil : l.filter p = [] := by
        rw [List.filter_eq_nil_iff]
        intro x hx hpx
        have hxr := (hiff x (List.mem_cons_of_mem a hx)).mp hpx
        exact (ha x hx) (by rw [hxr, h1])
      rw [hnil, h1]
    · have hpa : p a = false := by
        rcases Bool.eq_false_or_eq_true (p a) with ht | hf
        · have har := (hiff a (List.mem_cons_self a l)).mp ht
          exact absurd (congrArg CursorRow.id har) (ha r h1)
        · exact hf
      rw [List.filter_cons_of_neg (by simp [hpa])]
      exact ih hl h1 (fun r' hr' => hiff r' (List.mem_cons_of_mem a hr'))

/-- The guarded UPDATE preserves the distinct-ids invariant. -/
theorem cursorUpdRows_pairwise {tbl : List CursorRow} {cid : String}
    {c now : Int}
    (hpk : tbl.Pairwise (fun a b => a.id ≠ b.id)) :
    (cursorUpdRows tbl cid c now).Pairwise (fun a b => a.id ≠ b.id) := by
  unfold cursorUpdRows
  rw [List.pairwise_map]
  refine hpk.imp ?_
  intro a b h
  by_cases hA : cursorUpdMatch cid c a = true <;>
    by_cases hB : cursorUpdMatch cid c b = true <;>
      simp [hA, hB, h]

/-- A row hit by the guarded UPDATE appears in the updated table with
the new cursor and time. -/
theorem cursorUpdRows_mem {tbl : List CursorRow} {cid : String}
    {c now : Int} {r : CursorRow} (hr : r ∈ tbl)
    (hm : cursorUpdMatch cid c r = true) :
    (⟨r.id, c, now⟩ : CursorRow) ∈ cursorUpdRows tbl cid c now := by
  unfold cursorUpdRows
  have := List.mem_map_of_mem
    (fun x => if cursorUpdMatch cid c x then (⟨x.id, c, now⟩ : CursorRow)
              else x) hr
  simpa [hm] using this

/-- `setCursor` when no row exists for the consumer: the guarded
update affects zero rows and the fallback insert creates the row. -/
theorem setCursor_absent {tbl : List CursorRow} {cid : String}
    {v : String} {c now : Int} (hv : castCursor v = some c)
    (habs : ∀ r ∈ tbl, r.id ≠ cid) :
    setCursor tbl cid v now = (none, tbl ++ [⟨cid, c, now⟩]) := by
  have hm : ∀ r ∈ tbl, cursorUpdMatch cid c r = false := by
    intro r hr
    simp [cursorUpdMatch, habs r hr]
  have hupd := cursorUpdRows_of_none now hm
  have hfil : tbl.filter (cursorUpdMatch cid c) = [] :=
    List.filter_eq_nil_iff.mpr (fun r hr => by simp [hm r hr])
  have hany : tbl.any (fun r => r.id == cid) = false :=
    List.any_eq_false.mpr (fun r hr => by simp [habs r hr])
  simp only [setCursor, hv, hfil, hupd, hany, List.length_nil]
  norm_num

/-- `setCursor` when the consumer's row exists and already holds a
cursor at least the cast value: zero rows affected, the fallback
insert collides on the unique key, and the call reports
CursorRegressionError leaving the table unchanged. -/
theorem setCursor_stale {tbl : List CursorRow} {cid : String}
    {w : String} {c now : Int} (hw : castCursor w = some c)
    (hpk : tbl.Pairwise (fun a b => a.id ≠ b.id))
    {r : CursorRow} (hr : r ∈ tbl) (hid : r.id = cid)
    (hge : c ≤ r.cursor) :
    setCursor tbl cid w now = (some .cursorRegression, tbl) := by
  have hm : ∀ r' ∈ tbl, cursorUpdMatch cid c r' = false := by
    intro r' hr'
    unfold cursorUpdMatch
    by_cases hidr : r'.id = cid
    · have hrr : r' = r := pkUnique hpk hr' hr (hidr.trans hid.symm)
      subst hrr
      simp only [hidr, beq_self_eq_true, Bool.true_and]
      simpa using not_lt.mpr hge
    · simp [hidr]
  have hupd := cursorUpdRows_of_none now hm
  have hfil : tbl.filter (cursorUpdMatch cid c) = [] :=
    List.filter_eq_nil_iff.mpr (fun x hx => by simp [hm x hx])
  have hany : tbl.any (fun x => x.id == cid) = true :=
    List.any_eq_true.mpr ⟨r, hr, by simp [hid]⟩
  simp only [setCursor, hw, hfil, hupd, hany, List.length_nil]
  norm_num

/-- `setCursor` when the consumer's row exists with a smaller cursor:
the guarded update affects exactly that row and succeeds. -/
theorem setCursor_fresh {tbl : List CursorRow} {cid : String}
    {v : String} {c now : Int} (hv : castCursor v = some c)
    (hpk : tbl.Pairwise (fun a b => a.id ≠ b.id))
    {r : CursorRow} (hr : r ∈ tbl) (hid : r.id = cid)
    (hlt : r.cursor < c) :
    setCursor tbl cid v now = (none, cursorUpdRows tbl cid c now) := by
  have hfil : tbl.filter (cursorUpdMatch cid c) = [r] := by
    refine filter_pk_single hpk hr _ ?_
    intro r' hr'
    constructor
    · intro hp
      unfold cursorUpdMatch at hp
      have hid' : r'.id = cid := by
        have := Bool.and_elim_left hp
        simpa using this
      exact pkUnique hpk hr' hr (hid'.trans hid.symm)
    · rintro rfl
      simp [cursorUpdMatch, hid, hlt]
  simp only [setCursor, hv, hfil, List.length_singleton]
  norm_num

/-- After a successful `setCursor`, the table keeps the distinct-ids
invariant and stores exactly the cast cursor for the consumer. -/
theorem setCursor_ok {tbl tbl1 : List CursorRow} {cid : String}
    {v : String} {c now : Int} (hv : castCursor v = some c)
    (hpk : tbl.Pairwise (fun a b => a.id ≠ b.id))
    (h : setCursor tbl cid v now = (none, tbl1)) :
    tbl1.Pairwise (fun a b => a.id ≠ b.id) ∧
    ∃ r1 ∈ tbl1, r1.id = cid ∧ r1.cursor = c := by
  by_cases hex : ∃ r ∈ tbl, r.id = cid
  · rcases hex with ⟨r, hr, hid⟩
    by_cases hlt : r.cursor < c
    · rw [setCursor_fresh hv hpk hr hid hlt] at h
      have h2 : cursorUpdRows tbl cid c now = tbl1 := congrArg Prod.snd h
      subst h2
      refine ⟨cursorUpdRows_pairwise hpk, ⟨r.id, c, now⟩, ?_, hid, rfl⟩
      exact cursorUpdRows_mem hr (by simp [cursorUpdMatch, hid, hlt])
    · rw [setCursor_stale hv hpk hr hid (not_lt.mp hlt)] at h
      exact absurd (congrArg Prod.fst h) (by simp)
  · push_neg at hex
    rw [setCursor_absent hv hex] at h
    have h2 : tbl ++ [(⟨cid, c, now⟩ : CursorRow)] = tbl1 :=
      congrArg Prod.snd h
    subst h2
    refine ⟨?_, ⟨cid, c, now⟩, by simp, rfl, rfl⟩
    rw [List.pairwise_append]
    refine ⟨hpk, List.pairwise_singleton _ _, ?_⟩
    intro a ha b hb
    simp only [List.mem_singleton] at hb
    subst hb
    simpa using hex a ha

/-- With distinct consumer ids, `getCursor` returns the member row's
cursor as its decimal string. -/
theorem getCursor_found {tbl : List CursorRow}
    (hpk : tbl.Pairwise (fun a b => a.id ≠ b.id))
    {r : CursorRow} (hr : r ∈ tbl) {cid : String} (hid : r.id = cid) :
    getCursor tbl cid = .ok (toString r.cursor) := by
  have hfind : tbl.find? (fun x => x.id == cid) = some r := by
    induction tbl with
    | nil => cases hr
    | cons a l ih =>
      obtain ⟨ha, hl⟩ := List.pairwise_cons.mp hpk
      rcases List.mem_cons.mp hr with h1 | h1
      · rw [← h1]
        exact List.find?_cons_of_pos _ (by simp [hid])
      · have haid := ha r h1
        rw [hid] at haid
        rw [List.find?_cons_of_neg _ (by simpa using haid), ih hl h1]
  simp [getCursor, hfind]

/-- Claim C1: the stored cursor never decreases.  On a cursor table
with distinct consumer ids, after a successful `setCursor` (advance) to
a value `cv`, a later `setCursor` of the same consumer to any value
`cw ≤ cv` fails with CursorRegressionError (the duplicate-key path of
the update-then-insert pattern, wrapped as "attempted to set cursor <=
existing cursor"), leaves the table unchanged, and a subsequent
`getCursor` still returns the first value. -/
theorem C1_cursor_monotonic (tbl tbl1 : List CursorRow)
    (cid v w : String) (cv cw t1 t2 : Int)
    (hpk : tbl.Pairwise (fun a b => a.id ≠ b.id))
    (hv : castCursor v = some cv) (hw : castCursor w = some cw)
    (hle : cw ≤ cv)
    (hadv : setCursor tbl cid v t1 = (none, tbl1)) :
    setCursor tbl1 cid w t2 = (some .cursorRegression, tbl1) ∧
    getCursor tbl1 cid = .ok (toString cv) := by
  obtain ⟨hpk1, r1, hr1, hid1, hc1⟩ := setCursor_ok hv hpk hadv
  constructor
  · exact setCursor_stale hw hpk1 hr1 hid1 (by omega)
  · rw [getCursor_found hpk1 hr1 hid1, hc1]

/-- Witness for C1 on the spec's concrete scenario: advance to 5 from
an empty table, then attempt to advance to 3. -/
theorem C1_cursor_monotonic_witness :
    setCursor [(⟨"c", 5, 1⟩ : CursorRow)] "c" "3" 2 =
      (some .cursorRegression, [⟨"c", 5, 1⟩]) ∧
    getCursor [(⟨"c", 5, 1⟩ : CursorRow)] "c" = .ok "5" :=
  C1_cursor_monotonic [] [⟨"c", 5, 1⟩] "c" "5" "3" 5 3 1 2
    (by decide) (by decide) (by decide) (by decide) (by decide)
